import Mathlib

/-!
Verification of the MAESTRO scRNA-seq quality-control core.

Shallow embedding of `MAESTRO/scRNA_qc.py` (the cell-filtering routine
`FilterCell` and its driver `scrna_qc`, plus the `--format` handling of
`scrnaqc_parser`).

Modelling choices:
* The count matrix (a `scipy.sparse` matrix of `float32`) is modelled as a
  list of rows over `ℚ`, together with an explicit column count `ncols`
  (a list of rows cannot record the column count when there are no rows).
  Exact rationals stand in for the floating-point storage; the claims of the spec
  are about exact comparisons and integer truncation, which `ℚ` models.
* Numpy boolean-mask indexing is `applyMask`; Python `int()` is `pyInt`
  (truncation toward zero); Python `str.split` is `pySplit` on `List Char`.
* File-system side effects are recorded as an ordered `List Effect`; a write
  that Python would perform after a raised exception is simply absent from
  the returned trace.
* `os.makedirs` and the `open` of the statistics file are modelled through a
  tiny environment `Env` (does the output directory exist, may it be
  created); `scrna_qc` wraps `os_makedirs` in the `try ... except OSError: pass`
  of the source.
-/

namespace ScRNAQC

/-- Numpy boolean-mask selection `xs[mask]`: keep `xs[i]` exactly when
`mask[i]` is `true` (extra elements of either list are dropped, matching the
aligned lengths the source relies on). -/
def applyMask {α : Type} (mask : List Bool) (xs : List α) : List α :=
  (mask.zip xs).filterMap (fun p => if p.1 then some p.2 else none)

/-- The list of indices a boolean mask keeps, in increasing order. -/
def keptIndices : List Bool → List Nat
  | [] => []
  | b :: rest => (if b then [0] else []) ++ (keptIndices rest).map (· + 1)

/-- Column `j` of the row-major matrix (entry `0` past the end of a row;
theorems about ragged access always carry a rectangularity hypothesis). -/
def column (m : List (List ℚ)) (j : Nat) : List ℚ :=
  m.map (fun r => r.getD j 0)

/-- Line 58, `count_per_cell = np.asarray(rawmatrix.sum(axis=0))`:
per-column sums. -/
def count_per_cell (m : List (List ℚ)) (ncols : Nat) : List ℚ :=
  (List.range ncols).map (fun j => (column m j).sum)

/-- Line 59, `genes_per_cell = np.asarray((rawmatrix > 0).sum(axis=0))`:
per-column counts of strictly positive entries. -/
def genes_per_cell (m : List (List ℚ)) (ncols : Nat) : List Nat :=
  (List.range ncols).map (fun j => (column m j).countP (fun x => decide (0 < x)))

/-- Python `int()` on a rational: truncation toward zero. -/
def pyInt (q : ℚ) : Int :=
  q.num.tdiv q.den

/-- Spec notion `total_count(c)`: sum of column `c`. -/
abbrev total_count (m : List (List ℚ)) (j : Nat) : ℚ :=
  (column m j).sum

/-- Spec notion `feature_count(c)`: number of strictly positive entries of
column `c`. -/
abbrev feature_count (m : List (List ℚ)) (j : Nat) : Nat :=
  (column m j).countP (fun x => decide (0 < x))

/-- Lines 62-68: the successive `stat_out.write` payloads — the header, then
one line per matrix column `i` holding `barcode[i]`, `str(int(count))` and
`str(int(gene))`, tab-separated. -/
def stat_lines (m : List (List ℚ)) (ncols : Nat) (barcode : List String) : List String :=
  "Cell\tCount\tGene\n" ::
    (List.range ncols).map (fun i =>
      barcode.getD i "" ++ "\t" ++ toString (pyInt ((count_per_cell m ncols).getD i 0)) ++ "\t"
        ++ toString (pyInt (((genes_per_cell m ncols).getD i 0 : ℚ))) ++ "\n")

/-- Line 70, `passed_cell = np.logical_and(count_per_cell > count_cutoff,
genes_per_cell > gene_cutoff)` (both comparisons strict). -/
def passed_cell (m : List (List ℚ)) (ncols : Nat) (count_cutoff gene_cutoff : Int) : List Bool :=
  List.zipWith
    (fun (c : ℚ) (g : Nat) => decide ((count_cutoff : ℚ) < c) && decide (gene_cutoff < (g : Int)))
    (count_per_cell m ncols) (genes_per_cell m ncols)

/-- Lines 71-72, `passed_cell_matrix = rawmatrix[np.ix_(gene, passed_cell)]`
with `gene = [True]*rawmatrix.shape[0]`: an all-true mask over the rows, the
pass mask over the columns. -/
def passed_cell_matrix (m : List (List ℚ)) (ncols : Nat) (count_cutoff gene_cutoff : Int) :
    List (List ℚ) :=
  (applyMask (List.replicate m.length true) m).map
    (fun r => applyMask (passed_cell m ncols count_cutoff gene_cutoff) r)

/-- Line 74, `passed_barcodes = np.array(barcode)[passed_cell].tolist()`. -/
def passed_barcodes (m : List (List ℚ)) (ncols : Nat) (count_cutoff gene_cutoff : Int)
    (barcode : List String) : List String :=
  applyMask (passed_cell m ncols count_cutoff gene_cutoff) barcode

/-- The record handed to `write_10X_h5` (line 77). -/
structure H5Write where
  filename : String
  matrix : List (List ℚ)
  features : List String
  barcodes : List String
  genome : String
  datatype : String
  deriving DecidableEq

/-- A file-system side effect, in the order the Python code performs it. -/
inductive Effect where
  | mkdir (path : String)
  | fileWrite (filename : String) (lines : List String)
  | h5write (w : H5Write)
  deriving DecidableEq

/-- An error propagating out of `scrna_qc` (all three are uncaught in the
source). -/
inductive MkdirOutcome where
  | created
  | alreadyExists
  | permissionDenied
  deriving DecidableEq

inductive QCError where
  /-- An `OSError` raised by `os.makedirs` escaping to the caller. -/
  | osError (o : MkdirOutcome)
  /-- Python `NameError`/`UnboundLocalError`: a name referenced before
  assignment. -/
  | nameError (var : String)
  /-- Error `FileNotFoundError` (an `OSError`) from `open(filename, "w")` when the
  parent directory does not exist. -/
  | openError (filename : String)
  deriving DecidableEq

/-- Function `FilterCell` (lines 57-77): returns the ordered write effects it performs
and the error it raises, if any.  The `open(statfile, "w")` on line 62 fails
with `FileNotFoundError` when the parent directory is absent, before anything
is written; otherwise the statistics file is written in full, then the h5
container. -/
def FilterCell (dirExists : Bool) (rawmatrix : List (List ℚ)) (ncols : Nat)
    (feature barcode : List String) (count_cutoff gene_cutoff : Int)
    (outpre species : String) : List Effect × Option QCError :=
  if dirExists then
    ([Effect.fileWrite (outpre ++ "_count_gene_stat.txt") (stat_lines rawmatrix ncols barcode),
      Effect.h5write
        ⟨outpre ++ "_filtered_gene_count.h5",
          passed_cell_matrix rawmatrix ncols count_cutoff gene_cutoff,
          feature,
          passed_barcodes rawmatrix ncols count_cutoff gene_cutoff barcode,
          species, "Gene"⟩],
     none)
  else
    ([], some (QCError.openError (outpre ++ "_count_gene_stat.txt")))

def isH5Write : Effect → Bool
  | .h5write _ => true
  | _ => false

def isStatWrite : Effect → Bool
  | .fileWrite _ _ => true
  | _ => false

/-! The name mangling of the plain-text loader (lines 96-102) -/

/-- Python `s.split(sep)` for a nonempty separator, on strings as character
lists: non-overlapping leftmost-first splitting, always returning at least one
(possibly empty) field.  (Python raises `ValueError` on an empty separator;
an empty `sep` here falls through to the no-match behaviour and is never used.) -/
def pySplit (sep : List Char) : List Char → List (List Char)
  | [] => [[]]
  | c :: rest =>
    if h : sep.isPrefixOf (c :: rest) = true ∧ sep ≠ [] then
      [] :: pySplit sep (List.drop sep.length (c :: rest))
    else
      match pySplit sep rest with
      | [] => [[c]]
      | hd :: tl => (c :: hd) :: tl
termination_by s => s.length
decreasing_by
  · simp only [List.length_drop, List.length_cons]
    have hs : 1 ≤ sep.length := List.length_pos.mpr h.2
    omega
  · simp only [List.length_cons]
    omega

/-- Python `s.split(sep)[-1]`. -/
def pyLastField (sep : List Char) (s : List Char) : List Char :=
  (pySplit sep s).getLastD []

/-- Python `s.split(sep)[0]`. -/
def pyHeadField (sep : List Char) (s : List Char) : List Char :=
  (pySplit sep s).headD []

/-- Python slice `i[1:(len(i)-1)]` (lines 97, 99): everything but the first
and last character. -/
def stripEnds (s : List Char) : List Char :=
  (s.drop 1).take (s.length - 2)

/-- The single-quote character (code point 39) tested on lines 96 and 98. -/
def squote : Char := Char.ofNat 39

/-- Is `c` one of the two quote characters tested on lines 96 and 98? -/
def isQuote (c : Char) : Bool :=
  c = '"' || c = squote

/-- Lines 96-99: if the first character of the *first* name is a quote, strip
the first and last character of *every* name; otherwise leave every name
alone.  (Python indexes `names[0][0]` and raises `IndexError` when the list or
its first name is empty; that case is outside the modelled domain and falls
through unchanged here.) -/
def condStripQuotes (names : List (List Char)) : List (List Char) :=
  match names with
  | (c :: cs) :: tl =>
    if isQuote c then ((c :: cs) :: tl).map stripEnds else (c :: cs) :: tl
  | other => other

/-- Line 101: `i.split('_')[-1]` for each feature name. -/
def featureTransform (s : List Char) : List Char :=
  pyLastField ['_'] s

/-- The string literal `.genes.results` of line 102. -/
def gresMarker : List Char := ".genes.results".toList

/-- Line 102: `i.split('/')[-1].split('.genes.results')[0]` for each barcode. -/
def barcodeTransform (s : List Char) : List Char :=
  pyHeadField gresMarker (pyLastField ['/'] s)

/-- Lines 96-101 applied to the feature names of the plain branch. -/
def plainFeatures (features : List (List Char)) : List (List Char) :=
  (condStripQuotes features).map featureTransform

/-- Lines 98-99 and 102 applied to the barcode names of the plain branch. -/
def plainBarcodes (barcodes : List (List Char)) : List (List Char) :=
  (condStripQuotes barcodes).map barcodeTransform

/-! ## Independent characterisations of the split idioms (spec vocabulary) -/

/-- The suffix of `s` after the last occurrence of the character `sep` (all of
`s` when `sep` does not occur). -/
def splitLast (sep : Char) : List Char → List Char
  | [] => []
  | c :: rest => if c = sep ∨ sep ∈ rest then splitLast sep rest else c :: rest

/-- The prefix of `s` before the first occurrence of the pattern `pat` (all of
`s` when `pat` does not occur). -/
def splitFirst (pat : List Char) : List Char → List Char
  | [] => []
  | c :: rest =>
    if pat.isPrefixOf (c :: rest) = true ∧ pat ≠ [] then []
    else c :: splitFirst pat rest

/-- Reading of the barcode rule of claim C7 as the spec words it: take the part after the last
path separator, then remove a *trailing* `.genes.results` suffix (and only a
trailing one). -/
def specBarcodeName (s : List Char) : List Char :=
  let base := splitLast '/' s
  if gresMarker.isSuffixOf base then base.take (base.length - gresMarker.length) else base

/-- Does the quote-stripping of lines 96-99 leave this name list alone because
its first name does not begin with a quote (or is absent)? -/
def noLeadingQuote : List (List Char) → Bool
  | (c :: _) :: _ => !(isQuote c)
  | _ => true

/-! ## The driver `scrna_qc` (lines 80-123) and the `--format` argument -/

/-- The state of the file system relevant to `scrna_qc`: whether the output
directory exists and whether the process may create it. -/
structure Env where
  dirExists : Bool
  mkdirAllowed : Bool
  deriving DecidableEq

/-- Call `os.makedirs(directory)` (line 83): raises `FileExistsError` when the
directory already exists, `PermissionError` when it may not be created, and
otherwise creates it. -/
def os_makedirs (e : Env) : MkdirOutcome × Env :=
  if e.dirExists then (MkdirOutcome.alreadyExists, e)
  else if e.mkdirAllowed then (MkdirOutcome.created, { e with dirExists := true })
  else (MkdirOutcome.permissionDenied, e)

/-- The `choices` list of the `--format` option (lines 23-25). -/
def formatChoices : List String := ["h5", "mtx", "plain"]

/-- Handling of `--format` by argparse: an explicitly supplied value is
validated against `choices` (`none` = parse error and exit), while an absent
option silently receives the declared default `""`, which argparse does not
validate against `choices`. -/
def parseFormatArg : Option String → Option String
  | some v => if v ∈ formatChoices then some v else none
  | none => some ""

/-- Function `scrna_qc` (lines 80-123): `os.makedirs` wrapped in
`try ... except OSError: pass` (lines 82-87, every `OSError` is swallowed),
then the `if/elif` chain over `fileformat` — which has **no** `else` branch,
so an unrecognised tag leaves `rawmatrix` unassigned and the call on line 123
raises a `NameError` — then `FilterCell` on `os.path.join(directory,
outprefix)`.

The readers (`read_count`, `read_10X_h5`, `read_10X_mtx`, from the out-of-
scope serialization library) are abstracted: the matrix and the raw name
lists they return are parameters.  In the `plain` branch the name mangling of
lines 96-102 is applied to the raw names; the byte decoding of the `h5` branch and
the `mtx` branch pass names through (already-decoded text is the modelled
contract).  Returns the effects performed, and the error raised if any. -/
def scrna_qc (env : Env) (fileformat : String)
    (rawmatrix : List (List ℚ)) (ncols : Nat)
    (rawFeatures rawBarcodes : List (List Char))
    (directory outpre : String)
    (count_cutoff gene_cutoff : Int) (species : String) :
    List Effect × Option QCError :=
  let r := os_makedirs env
  let env2 := r.2
  let mkEff : List Effect :=
    if r.1 = MkdirOutcome.created then [Effect.mkdir directory] else []
  let filename := directory ++ "/" ++ outpre
  if fileformat = "plain" then
    let features := (plainFeatures rawFeatures).map (fun cs => String.mk cs)
    let barcodes := (plainBarcodes rawBarcodes).map (fun cs => String.mk cs)
    let fc := FilterCell env2.dirExists rawmatrix ncols features barcodes
      count_cutoff gene_cutoff filename species
    (mkEff ++ fc.1, fc.2)
  else if fileformat = "h5" then
    let features := rawFeatures.map (fun cs => String.mk cs)
    let barcodes := rawBarcodes.map (fun cs => String.mk cs)
    let fc := FilterCell env2.dirExists rawmatrix ncols features barcodes
      count_cutoff gene_cutoff filename species
    (mkEff ++ fc.1, fc.2)
  else if fileformat = "mtx" then
    let features := rawFeatures.map (fun cs => String.mk cs)
    let barcodes := rawBarcodes.map (fun cs => String.mk cs)
    let fc := FilterCell env2.dirExists rawmatrix ncols features barcodes
      count_cutoff gene_cutoff filename species
    (mkEff ++ fc.1, fc.2)
  else
    (mkEff, some (QCError.nameError "rawmatrix"))

/-! ## Helper lemmas -/

theorem applyMask_nil {α : Type} (mask : List Bool) : applyMask mask ([] : List α) = [] := by
  cases mask <;> rfl

theorem applyMask_cons {α : Type} (b : Bool) (mask : List Bool) (x : α) (xs : List α) :
    applyMask (b :: mask) (x :: xs) = (if b then [x] else []) ++ applyMask mask xs := by
  cases b <;> simp [applyMask]

theorem applyMask_replicate_true {α : Type} (xs : List α) :
    applyMask (List.replicate xs.length true) xs = xs := by
  induction xs with
  | nil => rfl
  | cons x xs ih => simp [List.replicate, applyMask_cons, ih]

theorem applyMask_all_false {α : Type} (mask : List Bool) (xs : List α)
    (h : ∀ b ∈ mask, b = false) : applyMask mask xs = [] := by
  induction mask generalizing xs with
  | nil => rfl
  | cons b rest ih =>
    cases xs with
    | nil => rfl
    | cons x xs =>
      have hb : b = false := h b (List.mem_cons_self b rest)
      subst hb
      rw [applyMask_cons]
      simpa using ih xs (fun b hb => h b (List.mem_cons_of_mem _ hb))

theorem getD_map_of_lt {α β : Type} (l : List α) (f : α → β) (i : Nat) (d : β) (d' : α)
    (hi : i < l.length) : (l.map f).getD i d = f (l.getD i d') := by
  rw [List.getD_eq_getElem _ _ (by simpa using hi), List.getElem_map,
    List.getD_eq_getElem _ _ hi]

theorem getD_map_range {α : Type} (n : Nat) (f : Nat → α) (j : Nat) (d : α) (hj : j < n) :
    ((List.range n).map f).getD j d = f j := by
  rw [getD_map_of_lt (List.range n) f j d 0 (by simpa using hj),
    List.getD_eq_getElem _ _ (by simpa using hj), List.getElem_range]

theorem applyMask_eq_map_keptIndices {α : Type} (d : α) (mask : List Bool) (xs : List α)
    (h : mask.length ≤ xs.length) :
    applyMask mask xs = (keptIndices mask).map (fun j => xs.getD j d) := by
  induction mask generalizing xs with
  | nil => rfl
  | cons b rest ih =>
    cases xs with
    | nil => simp at h
    | cons x xs =>
      rw [applyMask_cons, keptIndices]
      have ihh := ih xs (by simpa using h)
      cases b <;>
        simp [List.map_map, Function.comp, ihh]

theorem applyMask_getD {α : Type} (mask : List Bool) (xs : List α) (i : Nat) (d : α)
    (h : mask.length ≤ xs.length) (hi : i < (keptIndices mask).length) :
    (applyMask mask xs).getD i d = xs.getD ((keptIndices mask).getD i 0) d := by
  rw [applyMask_eq_map_keptIndices d mask xs h,
    getD_map_of_lt (keptIndices mask) (fun j => xs.getD j d) i d 0 hi]

theorem zipWith_map_same {α β γ δ : Type} (f : β → γ → δ) (g : α → β) (g' : α → γ)
    (l : List α) :
    List.zipWith f (l.map g) (l.map g') = l.map (fun x => f (g x) (g' x)) := by
  induction l with
  | nil => rfl
  | cons x xs ih => simp [ih]

theorem passed_cell_eq_map (m : List (List ℚ)) (ncols : Nat) (cc gc : Int) :
    passed_cell m ncols cc gc
      = (List.range ncols).map (fun j =>
          decide ((cc : ℚ) < total_count m j) && decide (gc < (feature_count m j : Int))) := by
  rw [passed_cell, count_per_cell, genes_per_cell, zipWith_map_same]

theorem passed_cell_length (m : List (List ℚ)) (ncols : Nat) (cc gc : Int) :
    (passed_cell m ncols cc gc).length = ncols := by
  rw [passed_cell_eq_map]
  simp

theorem passed_cell_getD (m : List (List ℚ)) (ncols : Nat) (cc gc : Int) (j : Nat)
    (hj : j < ncols) :
    (passed_cell m ncols cc gc).getD j false
      = (decide ((cc : ℚ) < total_count m j) && decide (gc < (feature_count m j : Int))) := by
  rw [passed_cell_eq_map, getD_map_range ncols _ j false hj]

theorem count_per_cell_getD (m : List (List ℚ)) (ncols : Nat) (j : Nat) (hj : j < ncols) :
    (count_per_cell m ncols).getD j 0 = total_count m j := by
  rw [count_per_cell, getD_map_range ncols _ j 0 hj]

theorem genes_per_cell_getD (m : List (List ℚ)) (ncols : Nat) (j : Nat) (hj : j < ncols) :
    (genes_per_cell m ncols).getD j 0 = feature_count m j := by
  rw [genes_per_cell, getD_map_range ncols _ j 0 hj]

/-! ## Claim theorems -/

/-- **C1.** A cell `j` is marked as passing by the filter mask of line 70 iff
its total count strictly exceeds `count_cutoff` AND its feature count strictly
exceeds `gene_cutoff`; in particular a cell whose total equals `count_cutoff`,
or whose feature count equals `gene_cutoff`, is excluded. -/
theorem cell_passes_iff (m : List (List ℚ)) (ncols : Nat) (cc gc : Int) (j : Nat)
    (hj : j < ncols) :
    ((passed_cell m ncols cc gc).getD j false = true
        ↔ ((cc : ℚ) < total_count m j ∧ gc < (feature_count m j : Int)))
    ∧ ((total_count m j = (cc : ℚ) ∨ (feature_count m j : Int) = gc)
        → (passed_cell m ncols cc gc).getD j false = false) := by
  rw [passed_cell_getD m ncols cc gc j hj]
  constructor
  · simp
  · rintro (h | h) <;> simp [h]

theorem cell_passes_iff_witness :
    (0 < 1
      ∧ (((passed_cell [[(5 : ℚ)]] 1 4 0).getD 0 false = true
            ↔ ((4 : Int) : ℚ) < total_count [[(5 : ℚ)]] 0
              ∧ (0 : Int) < (feature_count [[(5 : ℚ)]] 0 : Int))
        ∧ ((total_count [[(5 : ℚ)]] 0 = ((4 : Int) : ℚ)
              ∨ (feature_count [[(5 : ℚ)]] 0 : Int) = 0)
            → (passed_cell [[(5 : ℚ)]] 1 4 0).getD 0 false = false))) :=
  ⟨by decide, cell_passes_iff [[(5 : ℚ)]] 1 4 0 0 (by decide)⟩

/-- **C2.** The statistics report written by `FilterCell` is the header line
followed by exactly one data row per cell, in original column order (all
cells, passing or not): row `i` holds barcode `i`, then the total
count and the feature count of the cell, each rendered by truncating any fractional part
(`str(int(_))`), and the report is the first file written. -/
theorem stat_report_structure (m : List (List ℚ)) (ncols : Nat) (feature barcode : List String)
    (cc gc : Int) (outpre species : String) (hbc : barcode.length = ncols) :
    (stat_lines m ncols barcode).length = barcode.length + 1
    ∧ (stat_lines m ncols barcode).getD 0 "" = "Cell\tCount\tGene\n"
    ∧ (∀ i, i < ncols →
        (stat_lines m ncols barcode).getD (i + 1) ""
          = barcode.getD i "" ++ "\t" ++ toString (pyInt (total_count m i)) ++ "\t"
              ++ toString (pyInt ((feature_count m i : ℚ))) ++ "\n")
    ∧ Effect.fileWrite (outpre ++ "_count_gene_stat.txt") (stat_lines m ncols barcode)
        ∈ (FilterCell true m ncols feature barcode cc gc outpre species).1 := by
  refine ⟨?_, rfl, ?_, ?_⟩
  · simp [stat_lines, hbc]
  · intro i hi
    rw [stat_lines, List.getD_cons_succ, getD_map_range ncols _ i "" hi,
      count_per_cell_getD m ncols i hi, genes_per_cell_getD m ncols i hi]
  · simp [FilterCell]

theorem stat_report_structure_witness :
    (["AAA", "BBB"].length = 2 ∧ 0 < 2)
    ∧ (stat_lines [[(5 : ℚ), 0], [2, 0]] 2 ["AAA", "BBB"]).length = ["AAA", "BBB"].length + 1
    ∧ (stat_lines [[(5 : ℚ), 0], [2, 0]] 2 ["AAA", "BBB"]).getD 0 "" = "Cell\tCount\tGene\n"
    ∧ (stat_lines [[(5 : ℚ), 0], [2, 0]] 2 ["AAA", "BBB"]).getD 1 ""
        = ["AAA", "BBB"].getD 0 "" ++ "\t"
            ++ toString (pyInt (total_count [[(5 : ℚ), 0], [2, 0]] 0)) ++ "\t"
            ++ toString (pyInt ((feature_count [[(5 : ℚ), 0], [2, 0]] 0 : ℚ))) ++ "\n" := by
  have h := stat_report_structure [[(5 : ℚ), 0], [2, 0]] 2 [] ["AAA", "BBB"] 0 0 "p" "GRCh38"
    (by decide)
  exact ⟨⟨by decide, by decide⟩, h.1, h.2.1, h.2.2.1 0 (by decide)⟩

/-- **C3.** Filtering removes only columns, never rows: the filtered matrix
has exactly as many rows as the input, and its `i`-th row is the `i`-th input
row restricted (by the column pass mask) — rows are kept in their original
order, none dropped. -/
theorem filter_preserves_rows (m : List (List ℚ)) (ncols : Nat) (cc gc : Int) :
    (passed_cell_matrix m ncols cc gc).length = m.length
    ∧ ∀ i, i < m.length →
        (passed_cell_matrix m ncols cc gc).getD i []
          = applyMask (passed_cell m ncols cc gc) (m.getD i []) := by
  rw [passed_cell_matrix, applyMask_replicate_true]
  constructor
  · simp
  · intro i hi
    rw [getD_map_of_lt m _ i [] [] hi]

theorem filter_preserves_rows_witness :
    (passed_cell_matrix [[(5 : ℚ)], [0]] 1 4 0).length = ([[(5 : ℚ)], [0]] : List (List ℚ)).length
    ∧ (0 : Nat) < 2
    ∧ (passed_cell_matrix [[(5 : ℚ)], [0]] 1 4 0).getD 0 []
        = applyMask (passed_cell [[(5 : ℚ)], [0]] 1 4 0) (([[(5 : ℚ)], [0]] : List (List ℚ)).getD 0 []) :=
  ⟨(filter_preserves_rows [[(5 : ℚ)], [0]] 1 4 0).1, by decide,
    (filter_preserves_rows [[(5 : ℚ)], [0]] 1 4 0).2 0 (by decide)⟩

/-- **C4.** The filtered barcode list is the pass mask applied to
`BarcodeList` — the very mask applied to the matrix columns — preserving
original relative order: the `i`-th filtered barcode is the barcode at the
`i`-th kept original index, and the `i`-th column of the filtered matrix is
the input column at that same index, so positional alignment of barcodes and
columns is preserved. -/
theorem filtered_barcodes_alignment (m : List (List ℚ)) (ncols : Nat) (cc gc : Int)
    (barcode : List String) (hbc : barcode.length = ncols)
    (hrect : ∀ r ∈ m, r.length = ncols) :
    passed_barcodes m ncols cc gc barcode
      = applyMask (passed_cell m ncols cc gc) barcode
    ∧ passed_barcodes m ncols cc gc barcode
        = (keptIndices (passed_cell m ncols cc gc)).map (fun j => barcode.getD j "")
    ∧ ∀ i, i < (keptIndices (passed_cell m ncols cc gc)).length →
        column (passed_cell_matrix m ncols cc gc) i
          = column m ((keptIndices (passed_cell m ncols cc gc)).getD i 0) := by
  have hlen : (passed_cell m ncols cc gc).length = ncols := passed_cell_length m ncols cc gc
  refine ⟨rfl, ?_, ?_⟩
  · rw [passed_barcodes, applyMask_eq_map_keptIndices "" _ barcode (by rw [hlen, hbc])]
  · intro i hi
    rw [column, column, passed_cell_matrix, applyMask_replicate_true, List.map_map]
    apply List.map_congr_left
    intro r hr
    show (applyMask (passed_cell m ncols cc gc) r).getD i 0 = _
    rw [applyMask_getD (passed_cell m ncols cc gc) r i 0 (by rw [hlen, hrect r hr]) hi]

theorem filtered_barcodes_alignment_witness :
    (["AAA", "BBB"].length = 2
      ∧ (∀ r ∈ ([[(5 : ℚ), 0]] : List (List ℚ)), r.length = 2)
      ∧ (0 : Nat) < (keptIndices (passed_cell [[(5 : ℚ), 0]] 2 4 0)).length)
    ∧ passed_barcodes [[(5 : ℚ), 0]] 2 4 0 ["AAA", "BBB"]
        = (keptIndices (passed_cell [[(5 : ℚ), 0]] 2 4 0)).map (fun j => ["AAA", "BBB"].getD j "")
    ∧ column (passed_cell_matrix [[(5 : ℚ), 0]] 2 4 0) 0
        = column [[(5 : ℚ), 0]] ((keptIndices (passed_cell [[(5 : ℚ), 0]] 2 4 0)).getD 0 0) := by
  have hmask : passed_cell [[(5 : ℚ), 0]] 2 4 0 = [true, false] := by
    rw [passed_cell_eq_map]
    simp only [List.range_succ, List.range_zero, List.nil_append, List.map_cons, List.map_nil,
      List.cons_append, total_count, feature_count, column, List.getD_cons_zero,
      List.getD_cons_succ, List.sum_cons, List.sum_nil, add_zero]
    decide
  have h := filtered_barcodes_alignment [[(5 : ℚ), 0]] 2 4 0 ["AAA", "BBB"] (by decide)
    (by decide)
  refine ⟨⟨by decide, by decide, ?_⟩, h.2.1, h.2.2 0 ?_⟩ <;>
    · rw [hmask]
      decide

/-- **C8.** In every run of `FilterCell` the statistics report is written
before the h5 container: any prefix of the effect trace (what is on disk if a
later step fails) that contains the container write also contains the
statistics write — a container without a report can never be observed. -/
theorem stat_written_before_h5 (m : List (List ℚ)) (ncols : Nat) (feature barcode : List String)
    (cc gc : Int) (outpre species : String) (k : Nat)
    (h : (((FilterCell true m ncols feature barcode cc gc outpre species).1).take k).any
      isH5Write = true) :
    (((FilterCell true m ncols feature barcode cc gc outpre species).1).take k).any
      isStatWrite = true := by
  match k with
  | 0 => simp at h
  | 1 => simp [FilterCell, isH5Write] at h
  | k + 2 => simp [FilterCell, isStatWrite]

theorem stat_written_before_h5_witness :
    ((((FilterCell true [[(5 : ℚ)]] 1 ["g"] ["b"] 4 0 "p" "GRCh38").1).take 2).any
        isH5Write = true)
    ∧ ((((FilterCell true [[(5 : ℚ)]] 1 ["g"] ["b"] 4 0 "p" "GRCh38").1).take 2).any
        isStatWrite = true) :=
  have hh : (((FilterCell true [[(5 : ℚ)]] 1 ["g"] ["b"] 4 0 "p" "GRCh38").1).take 2).any
      isH5Write = true := by simp [FilterCell, isH5Write]
  ⟨hh, stat_written_before_h5 [[(5 : ℚ)]] 1 ["g"] ["b"] 4 0 "p" "GRCh38" 2 hh⟩

/-- **C9.** When every cell fails the cutoffs the operation still succeeds
without raising: the pass mask is all-false, the filtered barcode list is
empty, the filtered matrix keeps every row (in order) but each row has zero
columns, the feature list is passed through unchanged, and the empty-column
container write is still performed. -/
theorem all_cells_fail_scenario (m : List (List ℚ)) (ncols : Nat) (cc gc : Int)
    (feature barcode : List String) (outpre species : String)
    (hfail : ∀ j, j < ncols →
      ¬((cc : ℚ) < total_count m j ∧ gc < (feature_count m j : Int))) :
    passed_cell m ncols cc gc = List.replicate ncols false
    ∧ passed_barcodes m ncols cc gc barcode = []
    ∧ (passed_cell_matrix m ncols cc gc).length = m.length
    ∧ (∀ r ∈ passed_cell_matrix m ncols cc gc, r = [])
    ∧ (FilterCell true m ncols feature barcode cc gc outpre species).2 = none
    ∧ Effect.h5write
        ⟨outpre ++ "_filtered_gene_count.h5", passed_cell_matrix m ncols cc gc,
          feature, [], species, "Gene"⟩
        ∈ (FilterCell true m ncols feature barcode cc gc outpre species).1 := by
  have hmask : passed_cell m ncols cc gc = List.replicate ncols false := by
    rw [passed_cell_eq_map]
    have : ∀ j ∈ List.range ncols,
        (decide ((cc : ℚ) < total_count m j) && decide (gc < (feature_count m j : Int)))
          = (fun _ => false) j := by
      intro j hj
      have hf := hfail j (List.mem_range.mp hj)
      simp only [Bool.and_eq_false_iff, decide_eq_false_iff_not]
      by_cases hc : (cc : ℚ) < total_count m j
      · exact Or.inr (fun hg => hf ⟨hc, hg⟩)
      · exact Or.inl hc
    rw [List.map_congr_left this, List.map_const', List.length_range]
  have hzero : ∀ b ∈ passed_cell m ncols cc gc, b = false := by
    rw [hmask]
    intro b hb
    exact List.eq_of_mem_replicate hb
  have hbar : passed_barcodes m ncols cc gc barcode = [] :=
    applyMask_all_false _ barcode hzero
  have hrows : ∀ r ∈ passed_cell_matrix m ncols cc gc, r = [] := by
    rw [passed_cell_matrix, applyMask_replicate_true]
    intro r hr
    obtain ⟨r0, _, rfl⟩ := List.mem_map.mp hr
    exact applyMask_all_false _ r0 hzero
  refine ⟨hmask, hbar, ?_, hrows, ?_, ?_⟩
  · rw [passed_cell_matrix, applyMask_replicate_true, List.length_map]
  · simp [FilterCell]
  · rw [← hbar]
    simp [FilterCell]

theorem all_cells_fail_scenario_witness :
    (∀ j, j < 2 →
      ¬((1000 : ℚ) < total_count [[(1 : ℚ), 0]] j
          ∧ (500 : Int) < (feature_count [[(1 : ℚ), 0]] j : Int)))
    ∧ passed_cell [[(1 : ℚ), 0]] 2 1000 500 = List.replicate 2 false
    ∧ passed_barcodes [[(1 : ℚ), 0]] 2 1000 500 ["b1", "b2"] = []
    ∧ (passed_cell_matrix [[(1 : ℚ), 0]] 2 1000 500).length = 1
    ∧ (FilterCell true [[(1 : ℚ), 0]] 2 ["g"] ["b1", "b2"] 1000 500 "p" "GRCh38").2 = none := by
  have hfail : ∀ j, j < 2 →
      ¬((1000 : ℚ) < total_count [[(1 : ℚ), 0]] j
          ∧ (500 : Int) < (feature_count [[(1 : ℚ), 0]] j : Int)) := by
    intro j hj
    interval_cases j <;>
      · simp only [total_count, feature_count, column, List.map_cons, List.map_nil,
          List.getD_cons_zero, List.getD_cons_succ, List.sum_cons, List.sum_nil, add_zero]
        decide
  have h := all_cells_fail_scenario [[(1 : ℚ), 0]] 2 1000 500 ["g"] ["b1", "b2"] "p" "GRCh38"
    hfail
  exact ⟨hfail, h.1, h.2.1, h.2.2.1, h.2.2.2.2.1⟩

/-- **C5, counterexample.** The empty format tag `""` lies outside the
supported set, yet it is *not* rejected at parse time (argparse does not
validate the declared default `""` against `choices`), and `scrna_qc` run on
it performs partial work — the output directory is created — before failing,
and the failure is a `NameError` at the `FilterCell` call (the `if/elif`
chain has no `else`), not a `ConfigurationError`. -/
theorem unsupported_format_counterexample :
    ("" ∉ formatChoices)
    ∧ parseFormatArg none = some ""
    ∧ scrna_qc ⟨false, true⟩ "" [[(1 : ℚ)]] 1 [['g']] [['b']] "MAESTRO" "out" 1000 500 "GRCh38"
        = ([Effect.mkdir "MAESTRO"], some (QCError.nameError "rawmatrix")) :=
  ⟨by decide, rfl, by decide⟩

/-- **C5, amended.** A format tag outside `{h5, mtx, plain}` that is supplied
explicitly on the command line is rejected by the `choices` check of the parser at
parse time; but a tag that reaches `scrna_qc` (the unvalidated argparse default
`""` does) causes no loading branch to run, and the operation fails at the
`FilterCell` call with an unbound-variable `NameError` — after the directory
side effect, not before any partial work. -/
theorem unsupported_format_behavior (fmt : String) (hf : fmt ∉ formatChoices)
    (env : Env) (m : List (List ℚ)) (ncols : Nat) (rf rb : List (List Char))
    (dir outp : String) (cc gc : Int) (sp : String) :
    parseFormatArg (some fmt) = none
    ∧ scrna_qc env fmt m ncols rf rb dir outp cc gc sp
        = ((if (os_makedirs env).1 = MkdirOutcome.created then [Effect.mkdir dir] else []),
           some (QCError.nameError "rawmatrix")) := by
  have h1 : ¬(fmt = "h5" ∨ fmt = "mtx" ∨ fmt = "plain") := by
    simpa [formatChoices] using hf
  push_neg at h1
  refine ⟨by simp [parseFormatArg, hf], ?_⟩
  simp [scrna_qc, h1.1, h1.2.1, h1.2.2]

theorem unsupported_format_behavior_witness :
    ("tsv" ∉ formatChoices)
    ∧ parseFormatArg (some "tsv") = none
    ∧ scrna_qc ⟨false, true⟩ "tsv" [[(1 : ℚ)]] 1 [['g']] [['b']] "d" "p" 0 0 "GRCh38"
        = ((if (os_makedirs ⟨false, true⟩).1 = MkdirOutcome.created
              then [Effect.mkdir "d"] else []),
           some (QCError.nameError "rawmatrix")) := by
  have h := unsupported_format_behavior "tsv" (by decide) ⟨false, true⟩ [[(1 : ℚ)]] 1
    [['g']] [['b']] "d" "p" 0 0 "GRCh38"
  exact ⟨by decide, h.1, h.2⟩

/-- **C6, counterexample.** When the directory does not exist and may not be
created (e.g. permission denied), `os.makedirs` fails for a reason other than
"already exists" — yet the operation is *not* fatal at that point: the
`except OSError: pass` of lines 84-87 swallows the error, the run proceeds
into the `h5` branch, and the eventual failure is the later statistics-file
`open` error, not the surfaced creation error. -/
theorem makedirs_failure_counterexample :
    (os_makedirs ⟨false, false⟩).1 = MkdirOutcome.permissionDenied
    ∧ scrna_qc ⟨false, false⟩ "h5" [[(1 : ℚ)]] 1 [['g']] [['b']] "MAESTRO" "out" 1000 500 "GRCh38"
        = ([], some (QCError.openError "MAESTRO/out_count_gene_stat.txt")) :=
  ⟨rfl, by decide⟩

/-- **C6, amended.** Output-directory creation is idempotent — a pre-existing
directory is not an error and the run completes — but a creation failure for
any other reason is *also* swallowed at that point (the `try/except` discards
every `OSError`); the operation then fails when the statistics file is first
opened inside the missing directory, surfacing that later I/O error instead. -/
theorem makedirs_error_swallowed (env : Env) (m : List (List ℚ)) (ncols : Nat)
    (rf rb : List (List Char)) (dir outp : String) (cc gc : Int) (sp : String) :
    (env.dirExists = true →
      (os_makedirs env).1 = MkdirOutcome.alreadyExists
      ∧ (scrna_qc env "h5" m ncols rf rb dir outp cc gc sp).2 = none)
    ∧ (env.dirExists = false → env.mkdirAllowed = false →
      (os_makedirs env).1 = MkdirOutcome.permissionDenied
      ∧ (scrna_qc env "h5" m ncols rf rb dir outp cc gc sp).2
          = some (QCError.openError (dir ++ "/" ++ outp ++ "_count_gene_stat.txt"))) := by
  obtain ⟨de, ma⟩ := env
  constructor
  · intro h
    subst h
    exact ⟨rfl, by simp [scrna_qc, os_makedirs, FilterCell]⟩
  · intro h1 h2
    subst h1
    subst h2
    exact ⟨rfl, by simp [scrna_qc, os_makedirs, FilterCell]⟩

theorem makedirs_error_swallowed_witness :
    ((⟨true, false⟩ : Env).dirExists = true
      ∧ (scrna_qc ⟨true, false⟩ "h5" [[(1 : ℚ)]] 1 [['g']] [['b']] "d" "p" 0 0 "GRCh38").2
          = none)
    ∧ ((⟨false, false⟩ : Env).dirExists = false
      ∧ (⟨false, false⟩ : Env).mkdirAllowed = false
      ∧ (scrna_qc ⟨false, false⟩ "h5" [[(1 : ℚ)]] 1 [['g']] [['b']] "d" "p" 0 0 "GRCh38").2
          = some (QCError.openError ("d" ++ "/" ++ "p" ++ "_count_gene_stat.txt"))) :=
  ⟨⟨rfl, ((makedirs_error_swallowed ⟨true, false⟩ [[(1 : ℚ)]] 1 [['g']] [['b']] "d" "p" 0 0
      "GRCh38").1 rfl).2⟩,
   ⟨rfl, rfl, ((makedirs_error_swallowed ⟨false, false⟩ [[(1 : ℚ)]] 1 [['g']] [['b']] "d" "p" 0 0
      "GRCh38").2 rfl rfl).2⟩⟩

/-! ## Correspondence between the `split` idioms and their direct forms -/

theorem pySplit_nil (sep : List Char) : pySplit sep [] = [[]] := by
  rw [pySplit.eq_def]

theorem pySplit_cons_pos (sep : List Char) (c : Char) (rest : List Char)
    (h : sep.isPrefixOf (c :: rest) = true ∧ sep ≠ []) :
    pySplit sep (c :: rest) = [] :: pySplit sep (List.drop sep.length (c :: rest)) := by
  rw [pySplit.eq_def]
  exact dif_pos h

theorem pySplit_cons_neg (sep : List Char) (c : Char) (rest : List Char)
    (h : ¬(sep.isPrefixOf (c :: rest) = true ∧ sep ≠ [])) :
    pySplit sep (c :: rest)
      = match pySplit sep rest with
        | [] => [[c]]
        | hd :: tl => (c :: hd) :: tl := by
  rw [pySplit.eq_def]
  exact dif_neg h

theorem single_isPrefixOf_cons (sep c : Char) (rest : List Char) :
    [sep].isPrefixOf (c :: rest) = true ↔ sep = c := by
  simp [List.isPrefixOf]

theorem pySplit_ne_nil (sep : List Char) (s : List Char) : pySplit sep s ≠ [] := by
  cases s with
  | nil => simp [pySplit_nil]
  | cons c rest =>
    by_cases h : sep.isPrefixOf (c :: rest) = true ∧ sep ≠ []
    · rw [pySplit_cons_pos sep c rest h]
      simp
    · rw [pySplit_cons_neg sep c rest h]
      cases heq : pySplit sep rest <;> simp

theorem getLastD_irrel {α : Type} (l : List α) (h : l ≠ []) (a b : α) :
    l.getLastD a = l.getLastD b := by
  cases l with
  | nil => exact absurd rfl h
  | cons x xs => rw [List.getLastD_cons, List.getLastD_cons]

theorem pySplit_single_not_mem (sep : Char) (s : List Char) (h : sep ∉ s) :
    pySplit [sep] s = [s] := by
  induction s with
  | nil => simp [pySplit_nil]
  | cons c rest ih =>
    rw [List.mem_cons, not_or] at h
    obtain ⟨h1, h2⟩ := h
    rw [pySplit_cons_neg [sep] c rest
      (fun hq => h1 ((single_isPrefixOf_cons sep c rest).mp hq.1))]
    rw [ih h2]

theorem pySplit_single_len (sep : Char) (s : List Char) (h : sep ∈ s) :
    2 ≤ (pySplit [sep] s).length := by
  induction s with
  | nil => cases h
  | cons c rest ih =>
    by_cases hc : [sep].isPrefixOf (c :: rest) = true
    · rw [pySplit_cons_pos [sep] c rest ⟨hc, by simp⟩]
      cases hq : pySplit [sep] (List.drop ([sep] : List Char).length (c :: rest)) with
      | nil => exact absurd hq (pySplit_ne_nil [sep] _)
      | cons d ds => simp
    · have hm : sep ∈ rest := by
        rcases List.mem_cons.mp h with h | h
        · exact absurd ((single_isPrefixOf_cons sep c rest).mpr h) hc
        · exact h
      rw [pySplit_cons_neg [sep] c rest (fun hq => hc hq.1)]
      cases heq : pySplit [sep] rest with
      | nil => exact absurd heq (pySplit_ne_nil [sep] rest)
      | cons hd tl =>
        simp only [heq]
        have h2 := ih hm
        rw [heq] at h2
        simpa using h2

/-- Python `s.split(sep)[-1]` for a single-character separator is the suffix after
the last occurrence of the separator. -/
theorem pyLastField_single (sep : Char) (s : List Char) :
    pyLastField [sep] s = splitLast sep s := by
  induction s with
  | nil => simp [pyLastField, pySplit, splitLast]
  | cons c rest ih =>
    have ih' : (pySplit [sep] rest).getLastD [] = splitLast sep rest := ih
    show (pySplit [sep] (c :: rest)).getLastD [] = _
    have hsl : splitLast sep (c :: rest)
        = if c = sep ∨ sep ∈ rest then splitLast sep rest else c :: rest := rfl
    rw [hsl]
    by_cases hc : c = sep
    · have hpre : [sep].isPrefixOf (c :: rest) = true :=
        (single_isPrefixOf_cons sep c rest).mpr hc.symm
      rw [pySplit_cons_pos [sep] c rest ⟨hpre, by simp⟩]
      have hdrop : List.drop ([sep] : List Char).length (c :: rest) = rest := rfl
      rw [hdrop, List.getLastD_cons, ih', if_pos (Or.inl hc)]
    · by_cases hm : sep ∈ rest
      · have hpre : ¬([sep].isPrefixOf (c :: rest) = true ∧ ([sep] : List Char) ≠ []) :=
          fun hq => hc ((single_isPrefixOf_cons sep c rest).mp hq.1).symm
        rw [pySplit_cons_neg [sep] c rest hpre]
        cases heq : pySplit [sep] rest with
        | nil => exact absurd heq (pySplit_ne_nil [sep] rest)
        | cons hd tl =>
          simp only [heq]
          have htl : tl ≠ [] := by
            have h2 := pySplit_single_len sep rest hm
            rw [heq] at h2
            simp only [List.length_cons] at h2
            intro hnil
            rw [hnil] at h2
            simp at h2
          rw [heq, List.getLastD_cons] at ih'
          show ((c :: hd) :: tl).getLastD [] = _
          rw [List.getLastD_cons, getLastD_irrel tl htl (c :: hd) hd, ih',
            if_pos (Or.inr hm)]
      · have hnotmem : sep ∉ c :: rest := by
          rw [List.mem_cons, not_or]
          exact ⟨fun hq => hc hq.symm, hm⟩
        rw [pySplit_single_not_mem sep (c :: rest) hnotmem,
          if_neg (by rw [not_or]; exact ⟨hc, hm⟩)]
        simp [List.getLastD_cons]

/-- Python `s.split(pat)[0]` for a nonempty pattern is the prefix before the first
occurrence of the pattern. -/
theorem pyHeadField_eq_splitFirst (pat : List Char) (hp : pat ≠ []) (s : List Char) :
    pyHeadField pat s = splitFirst pat s := by
  induction s with
  | nil => simp [pyHeadField, pySplit, splitFirst]
  | cons c rest ih =>
    have ih' : (pySplit pat rest).headD [] = splitFirst pat rest := ih
    show (pySplit pat (c :: rest)).headD [] = _
    have hsf : splitFirst pat (c :: rest)
        = if pat.isPrefixOf (c :: rest) = true ∧ pat ≠ [] then []
          else c :: splitFirst pat rest := rfl
    rw [hsf]
    by_cases hpre : pat.isPrefixOf (c :: rest) = true
    · rw [pySplit_cons_pos pat c rest ⟨hpre, hp⟩, if_pos ⟨hpre, hp⟩]
      rfl
    · rw [pySplit_cons_neg pat c rest (fun hq => hpre hq.1), if_neg (fun hq => hpre hq.1)]
      cases heq : pySplit pat rest with
      | nil => exact absurd heq (pySplit_ne_nil pat rest)
      | cons hd tl =>
        simp only [heq]
        rw [heq] at ih'
        show ((c :: hd) :: tl).headD [] = _
        simp only [List.headD_cons] at ih' ⊢
        rw [ih']

theorem condStripQuotes_noop (ns : List (List Char)) (h : noLeadingQuote ns = true) :
    condStripQuotes ns = ns := by
  cases ns with
  | nil => rfl
  | cons n tl =>
    cases n with
    | nil => rfl
    | cons c cs =>
      have hq : isQuote c = false := by simpa [noLeadingQuote] using h
      simp [condStripQuotes, hq]

/-- **C7, counterexample.** Line 102 takes the prefix before the *first*
occurrence of `.genes.results` anywhere in the name, not merely a trailing
suffix: on the (quote-free, separator-free) barcode `s.genes.resultsx` the
code stores `s`, while removal of a trailing `.genes.results` suffix — the
rule the claim states — would leave `s.genes.resultsx` unchanged.  So the
universally quantified description of the stored barcode name is false. -/
theorem barcode_marker_counterexample :
    plainBarcodes ["s.genes.resultsx".toList] = ["s".toList]
    ∧ specBarcodeName "s.genes.resultsx".toList = "s.genes.resultsx".toList
    ∧ ("s".toList : List Char) ≠ "s.genes.resultsx".toList := by
  refine ⟨?_, by decide, by decide⟩
  rw [plainBarcodes, condStripQuotes_noop _ (by decide)]
  simp only [List.map_cons, List.map_nil]
  rw [show barcodeTransform "s.genes.resultsx".toList
      = pyHeadField gresMarker (pyLastField ['/'] "s.genes.resultsx".toList) from rfl]
  rw [pyLastField_single, pyHeadField_eq_splitFirst gresMarker (by decide)]
  decide

/-- **C7, amended.** For a dense plain-text input whose first feature and
first barcode names do not begin with a quote character (so the conditional
quote-stripping of C10 leaves the lists alone), each stored feature name is
the substring after the last underscore, and each stored barcode name is the
prefix of the substring after the last path separator that precedes the
*first* occurrence of `.genes.results` (the whole substring when the marker
is absent); in particular `ENSG00000141510_TP53` is stored as `TP53` and
`/data/out/sample1.genes.results` is stored as `sample1`. -/
theorem plain_name_mangling (features barcodes : List (List Char))
    (hf : noLeadingQuote features = true) (hb : noLeadingQuote barcodes = true) :
    plainFeatures features = features.map (splitLast '_')
    ∧ plainBarcodes barcodes = barcodes.map (fun b => splitFirst gresMarker (splitLast '/' b))
    ∧ plainFeatures ["ENSG00000141510_TP53".toList] = ["TP53".toList]
    ∧ plainBarcodes ["/data/out/sample1.genes.results".toList] = ["sample1".toList] := by
  have hfe : ∀ s : List Char, featureTransform s = splitLast '_' s := fun s =>
    pyLastField_single '_' s
  have hbc : ∀ s : List Char, barcodeTransform s = splitFirst gresMarker (splitLast '/' s) := by
    intro s
    rw [show barcodeTransform s = pyHeadField gresMarker (pyLastField ['/'] s) from rfl,
      pyLastField_single, pyHeadField_eq_splitFirst gresMarker (by decide)]
  refine ⟨?_, ?_, ?_, ?_⟩
  · rw [plainFeatures, condStripQuotes_noop features hf]
    exact List.map_congr_left (fun s _ => hfe s)
  · rw [plainBarcodes, condStripQuotes_noop barcodes hb]
    exact List.map_congr_left (fun s _ => hbc s)
  · rw [plainFeatures, condStripQuotes_noop _ (by decide)]
    simp only [List.map_cons, List.map_nil, hfe]
    decide
  · rw [plainBarcodes, condStripQuotes_noop _ (by decide)]
    simp only [List.map_cons, List.map_nil, hbc]
    decide

theorem plain_name_mangling_witness :
    noLeadingQuote ["ENSG00000141510_TP53".toList] = true
    ∧ noLeadingQuote ["/data/out/sample1.genes.results".toList] = true
    ∧ plainFeatures ["ENSG00000141510_TP53".toList] = ["TP53".toList]
    ∧ plainBarcodes ["/data/out/sample1.genes.results".toList] = ["sample1".toList] := by
  have h := plain_name_mangling ["ENSG00000141510_TP53".toList]
    ["/data/out/sample1.genes.results".toList] (by decide) (by decide)
  exact ⟨by decide, by decide, h.2.2.1, h.2.2.2⟩

/-- **C10.** In the plain-text loader, quote stripping is decided solely by
the first character of the first name of the list: if that character is a
single or double quote, the first and last characters are removed from
*every* name in the list (`stripEnds s = s.tail.dropLast`, applied even to
names carrying no quotes); if it is not a quote, *no* name is stripped, even
a quoted one. -/
theorem quote_strip_decided_by_first_name (c : Char) (cs : List Char) (tl : List (List Char)) :
    (isQuote c = true →
        condStripQuotes ((c :: cs) :: tl) = ((c :: cs) :: tl).map stripEnds)
    ∧ (isQuote c = false → condStripQuotes ((c :: cs) :: tl) = (c :: cs) :: tl)
    ∧ (∀ s : List Char, stripEnds s = s.tail.dropLast) := by
  refine ⟨fun h => by simp [condStripQuotes, h], fun h => by simp [condStripQuotes, h], ?_⟩
  intro s
  rw [stripEnds, List.drop_one, List.dropLast_eq_take, List.length_tail,
    show s.length - 2 = s.length - 1 - 1 by omega]

theorem quote_strip_decided_by_first_name_witness :
    isQuote '"' = true
    ∧ condStripQuotes [['"', 'A', '"'], ['B', 'X', 'C']]
        = [['"', 'A', '"'], ['B', 'X', 'C']].map stripEnds
    ∧ isQuote 'A' = false
    ∧ condStripQuotes [['A', '"'], ['"', 'B', '"']] = [['A', '"'], ['"', 'B', '"']] :=
  ⟨by decide,
   (quote_strip_decided_by_first_name '"' ['A', '"'] [['B', 'X', 'C']]).1 (by decide),
   by decide,
   (quote_strip_decided_by_first_name 'A' ['"'] [['"', 'B', '"']]).2.1 (by decide)⟩

end ScRNAQC
